import Mathlib

/-!
Verification of the SDMX-JSON catalog item's dimension-decoding /
combination-enumeration / column-synthesis engine
(lib/Models/SdmxJsonCatalogItem.js and its variant implementation).

The JavaScript source is shallowly embedded: arrays become `List`, the
sparse observation map becomes an association list, JS `undefined` inside
result arrays becomes `none`, observation numbers become `Int`, and a cell
holding JS `null` becomes `none : Option Int`.
-/

set_option autoImplicit false

namespace SdmxJson

/-- JS `Array.prototype.filter` with an `(element, index)` callback:
auxiliary recursion carrying the current index. -/
def filterWithIndexAux {α : Type} (p : Nat → α → Bool) : Nat → List α → List α
  | _, [] => []
  | i, a :: t =>
    if p i a then a :: filterWithIndexAux p (i + 1) t else filterWithIndexAux p (i + 1) t

/-- JS `Array.prototype.filter` with an `(element, index)` callback. -/
def filterWithIndex {α : Type} (p : Nat → α → Bool) (l : List α) : List α :=
  filterWithIndexAux p 0 l

/-- JS `Array.prototype.map` whose callback reads the element index and a
mutable counter threaded left to right (used for `nextConceptIndex++`). -/
def mapIdxState {α β : Type} (f : Nat → Nat → α → β × Nat) : Nat → Nat → List α → List β
  | _, _, [] => []
  | i, s, a :: t =>
    let r := f i s a
    r.1 :: mapIdxState f (i + 1) r.2 t

/-- JS `Array.prototype.indexOf`: index of the first occurrence, `-1` if absent. -/
def jsIndexOf {α : Type} [DecidableEq α] : List α → α → Int
  | [], _ => -1
  | b :: t, a =>
    if b = a then 0
    else
      let r := jsIndexOf t a
      if r < 0 then -1 else r + 1

/-- JS `Array.prototype.lastIndexOf`: index of the last occurrence, `-1` if absent. -/
def jsLastIndexOf {α : Type} [DecidableEq α] : List α → α → Int
  | [], _ => -1
  | b :: t, a =>
    let r := jsLastIndexOf t a
    if 0 ≤ r then r + 1 else if b = a then 0 else -1

/-- JS `array.join(',')` on an array of small non-negative integers. -/
def joinComma (l : List Nat) : String :=
  String.intercalate "," (l.map (fun n => toString n))

/-- JS `array.join(':')` on an array of small non-negative integers
(the canonical sparse-key encoding). -/
def joinColon (l : List Nat) : String :=
  String.intercalate ":" (l.map (fun n => toString n))

/-- Modelled from the spec: the repository's `lib/Core/arrayProduct` (not under
`src/`), the "cartesian product over ordered index ranges", enumerated in
lexicographic order with the first dimension varying slowest. -/
def arrayProduct {α : Type} : List (List α) → List (List α)
  | [] => [[]]
  | pool :: rest => pool.flatMap (fun x => (arrayProduct rest).map (fun tail => x :: tail))

/-- `getRegionColumnName` (main variant): lower-case the region-type id; if it
contains an underscore, splice the literal `_code` in before the last
underscore, else append `_code`. Strings are modelled as `List Char`;
`slice(0, i)` is `take i` and `slice(i)` is `drop i`. -/
def getRegionColumnName (regionTypeId : List Char) : List Char :=
  let lowerCaseId := regionTypeId.map Char.toLower
  let underscoreIndex := jsLastIndexOf lowerCaseId '_'
  if 0 ≤ underscoreIndex then
    lowerCaseId.take underscoreIndex.toNat ++ "_code".toList ++ lowerCaseId.drop underscoreIndex.toNat
  else
    lowerCaseId ++ "_code".toList

/-- One entry of a dimension's `values[]` array in the wire format: `{id, name}`. -/
structure RawDimensionValue where
  id : String
  name : String
deriving DecidableEq, Repr

instance : Inhabited RawDimensionValue := ⟨⟨"", ""⟩⟩

/-- One raw dimension-structure entry, `json.structure.dimensions.series[i]`
(or `.observation[i]` in the dataflow variant):
`{keyPosition, id, name, values[]}`. -/
structure StructureSeriesEntry where
  keyPosition : Nat
  id : String
  name : String
  values : List RawDimensionValue
deriving DecidableEq, Repr

instance : Inhabited StructureSeriesEntry := ⟨⟨0, "", "", []⟩⟩

/-- The configured special-role identifier strings held on the catalog item
(`item.regionDimensionId` etc., defaulted in `_load`). -/
structure RoleIds where
  regionDimensionId : String
  regionTypeDimensionId : String
  timePeriodDimensionId : String
deriving DecidableEq, Repr

/-- The default role ids set by `_load`. -/
def defaultRoleIds : RoleIds :=
  { regionDimensionId := "REGION", regionTypeDimensionId := "REGIONTYPE",
    timePeriodDimensionId := "TIME_PERIOD" }

/-- The result record of `calculateSpecialDimensions`; `undefined` indices are `none`. -/
structure SpecialDimensions where
  regionDimensionIndex : Option Nat
  regionTypeDimensionIndex : Option Nat
  regionTypeCount : Nat
  timePeriodDimensionIndex : Option Nat
deriving DecidableEq, Repr

/-- The loop body of `calculateSpecialDimensions`: each branch of the
`if`/`else if` chain assigns the entry's `keyPosition` into the matching role
slot (overwriting any earlier match for that role). -/
def specialDimensionStep (roleIds : RoleIds) (result : SpecialDimensions)
    (entry : StructureSeriesEntry) : SpecialDimensions :=
  if entry.id = roleIds.regionDimensionId then
    { result with regionDimensionIndex := some entry.keyPosition }
  else if entry.id = roleIds.regionTypeDimensionId then
    { result with regionTypeDimensionIndex := some entry.keyPosition,
                  regionTypeCount := entry.values.length }
  else if entry.id = roleIds.timePeriodDimensionId then
    { result with timePeriodDimensionIndex := some entry.keyPosition }
  else result

/-- `calculateSpecialDimensions(item, structureSeries)`: one pass over the
entries applying `specialDimensionStep`, starting from all-`undefined` roles. -/
def calculateSpecialDimensions (roleIds : RoleIds) (structureSeries : List StructureSeriesEntry) :
    SpecialDimensions :=
  structureSeries.foldl (specialDimensionStep roleIds)
    { regionDimensionIndex := none, regionTypeDimensionIndex := none,
      regionTypeCount := 0, timePeriodDimensionIndex := none }

/-- The result record of `calculateShownDimensionNamesAndValues`.
A slot holding JS `undefined` (never written, or pushed as `undefined`) is
`none`; a slot holding a JS array is `some` that list. `missingDimensionReported`
records whether the `result.values.indexOf(undefined) >= 0` diagnostic fired. -/
structure ShownDimensionInfo where
  values : List (Option (List Nat))
  names : List (Option (List String))
  ids : List (Option (List String))
  dimensionNames : List (Option String)
  dimensionIds : List (Option String)
  missingDimensionReported : Bool
deriving DecidableEq, Repr

/-- The loop body of `calculateShownDimensionNamesAndValues`: write this
entry's data into its `keyPosition` slot of each result array. -/
def shownDimensionStep (result : ShownDimensionInfo) (thisSeries : StructureSeriesEntry) :
    ShownDimensionInfo :=
  { result with
    values := result.values.set thisSeries.keyPosition (some (List.range thisSeries.values.length)),
    dimensionNames := result.dimensionNames.set thisSeries.keyPosition (some thisSeries.name),
    dimensionIds := result.dimensionIds.set thisSeries.keyPosition (some thisSeries.id),
    ids := result.ids.set thisSeries.keyPosition
      (some (thisSeries.values.map (fun nameAndId => nameAndId.id))),
    names := result.names.set thisSeries.keyPosition
      (some (if thisSeries.values.length > 1 then
        thisSeries.values.map (fun nameAndId => nameAndId.name)
       else [""])) }

/-- `removeIndex` (inner helper of `calculateShownDimensionNamesAndValues`):
if the special index is defined, cut its `values` slot down to its first
element (`slice(0, 1)`) and blank its `names` slot. -/
def removeIndex (result : ShownDimensionInfo) (index : Option Nat) : ShownDimensionInfo :=
  match index with
  | none => result
  | some i =>
    { result with
      values := result.values.set i ((result.values.getD i none).map (fun v => v.take 1)),
      names := result.names.set i (some [""]) }

/-- The pre-filled result record: `values` and `names` hold one pushed empty
array per entry; `dimensionNames` and `dimensionIds` hold pushed `undefined`s;
`ids` receives only keyPosition assignments (a `none`-initialised array of the
same length, matching the JS array's state at every slot below `n`). -/
def initialShownDimensionInfo (n : Nat) : ShownDimensionInfo :=
  { values := List.replicate n (some []), names := List.replicate n (some []),
    ids := List.replicate n none, dimensionNames := List.replicate n none,
    dimensionIds := List.replicate n none, missingDimensionReported := false }

/-- `calculateShownDimensionNamesAndValues(structureSeries, specialDimensions)`:
pre-fill the result arrays, write each entry into its `keyPosition` slot, check
for `undefined` slots in `values` (the `indexOf(undefined)` diagnostic), then
blank the region and time-period dimensions. -/
def calculateShownDimensionNamesAndValues (structureSeries : List StructureSeriesEntry)
    (specialDimensions : Option SpecialDimensions) : ShownDimensionInfo :=
  let init := initialShownDimensionInfo structureSeries.length
  let result := structureSeries.foldl shownDimensionStep init
  let result := { result with
    missingDimensionReported := decide (0 ≤ jsIndexOf result.values none) }
  match specialDimensions with
  | none => result
  | some sd => removeIndex (removeIndex result sd.regionDimensionIndex) sd.timePeriodDimensionIndex

/-- The pair returned by `calculateShownDimensionCombinations`. -/
structure ShownDimensionCombinations where
  values : List (List Nat)
  names : List (List String)
deriving DecidableEq, Repr

/-- `getNonTimeDimensionFilter(item)`: keep a dimension index unless it strictly
equals the time-period dimension index (`!==` against a possibly `undefined` index). -/
def nonTimeDimensionFilter (timePeriodDimensionIndex : Option Nat) (dimensionIndex : Nat) : Bool :=
  decide (some dimensionIndex ≠ timePeriodDimensionIndex)

/-- `calculateShownDimensionCombinations(item)`: the cartesian product of the
time-filtered `values` and `names` arrays of `item._dimensionInfo`. -/
def calculateShownDimensionCombinations (dimensionInfoValues : List (List Nat))
    (dimensionInfoNames : List (List String)) (timePeriodDimensionIndex : Option Nat) :
    ShownDimensionCombinations :=
  { values := arrayProduct
      (filterWithIndex (fun i _ => nonTimeDimensionFilter timePeriodDimensionIndex i)
        dimensionInfoValues),
    names := arrayProduct
      (filterWithIndex (fun i _ => nonTimeDimensionFilter timePeriodDimensionIndex i)
        dimensionInfoNames) }

/-- A table column as handed to the external table container: a name, one cell
per region row (`none` models a `null` cell), and the active flag. Region
columns hold region-id strings in the source; their cell contents are not
inspected by any function embedded here, so one cell type suffices. -/
structure TableColumn where
  name : String
  values : List (Option Int)
  isActive : Bool
deriving DecidableEq, Repr

instance : Inhabited TableColumn := ⟨⟨"", [], false⟩⟩

/-- Modelled from the spec: `TableColumn.sumValues` (lib/Map/TableColumn.js, not
under `src/`) sums "the corresponding value columns element-wise (region-wise),
treating null as contributing zero unless every summand at that region is
null". Row count is taken from the first column; no columns give no rows. -/
def sumValues (columns : List TableColumn) : List (Option Int) :=
  let rowCount := (columns.head?.map (fun c => c.values.length)).getD 0
  (List.range rowCount).map (fun r =>
    if columns.all (fun c => c.values.getD r none = none) then none
    else some (columns.foldl (fun acc c => acc + ((c.values.getD r none).getD 0)) 0))

/-- The sparse observation map `json.dataSets[0].series`: colon-joined
index-tuple keys to `observations`, itself time-index rows of scalars. -/
def SparseObservationMap : Type := List (String × List (List (Option Int)))

/-- `series[key].observations[0][0]`: the first scalar of an observation record. -/
def firstObservationScalar (observations : List (List (Option Int))) : Option Int :=
  (observations.getD 0 []).getD 0 none

/-- `buildValueColumns(shownDimensionCombinations, structureSeries, series,
specialDimensions, columnOptions)`: one column per combination; each cell comes
from substituting the region index into the combination's region slot, joining
with `:` and looking the key up in the sparse map (`null` when absent).
The source reads `structureSeries[specialDimensions.regionDimensionIndex]`
unguarded; callers have already checked the index is defined, so an undefined
index is defaulted here and excluded by hypothesis in the theorems. -/
def buildValueColumns (shownDimensionCombinations : ShownDimensionCombinations)
    (structureSeries : List StructureSeriesEntry) (series : SparseObservationMap)
    (specialDimensions : SpecialDimensions) : List TableColumn :=
  let uniqueValue := shownDimensionCombinations.values.length ≤ 1
  (List.range shownDimensionCombinations.values.length).map (fun combinationIndex =>
    let dimensionIndices := shownDimensionCombinations.values.getD combinationIndex []
    let dimensionName :=
      if uniqueValue then "Value"
      else String.intercalate " "
        ((shownDimensionCombinations.names.getD combinationIndex []).filter
          (fun name => name ≠ ""))
    let regionDimensionIndex := specialDimensions.regionDimensionIndex.getD 0
    let regionCount := (structureSeries.getD regionDimensionIndex default).values.length
    let values := (List.range regionCount).map (fun regionIndex =>
      let key := joinColon (dimensionIndices.set regionDimensionIndex regionIndex)
      match series.lookup key with
      | some observations => firstObservationScalar observations
      | none => none)
    { name := dimensionName, values := values, isActive := uniqueValue })

/-- The catalog-item state read by the selection-driven recompute functions.
`concepts` holds, per top-level concept, the `isActive` flag of each child
selection item; `combinations` is `item._combinations` (the registry of
non-trivial sub-tuples); `tableColumns` is `item._tableStructure.columns`;
`dimensionInfoIds` is `item._dimensionInfo.ids` (all slots defined). -/
structure ItemState where
  url : String
  dataflowUrl : Option String
  concepts : List (List Bool)
  combinations : List (List Nat)
  dimensionInfoIds : List (List String)
  tableColumns : List TableColumn
  specialDimensions : SpecialDimensions

/-- `calculateActiveConceptValues(concepts)`: per concept, the indices of its
currently active child items. -/
def calculateActiveConceptValues (concepts : List (List Bool)) : List (List Nat) :=
  concepts.map (fun parentItems =>
    (List.range parentItems.length).filter (fun i => parentItems.getD i false))

/-- `buildTotalColumns(item)`: if no concepts exist return no columns; else take
the cartesian product of the active child indices, look each active combination
up (by comma-joined string) in `item._combinations`, keep exactly the value
columns at the resulting positions, and sum them into an active
`'Total selected'` column. -/
def buildTotalColumns (item : ItemState) : List TableColumn :=
  let activeConceptValues := calculateActiveConceptValues item.concepts
  if activeConceptValues.length = 0 then []
  else
    let activeCombinations := arrayProduct activeConceptValues
    let stringifiedCombinations := item.combinations.map (fun combination => joinComma combination)
    let indicesIntoCombinations := activeCombinations.map (fun activeCombination =>
      jsIndexOf stringifiedCombinations (joinComma activeCombination))
    let valueColumns := (item.tableColumns.drop 1).take item.combinations.length
    let includedColumns := filterWithIndex
      (fun i _ => decide (0 ≤ jsIndexOf indicesIntoCombinations (Int.ofNat i))) valueColumns
    [{ name := "Total selected", values := sumValues includedColumns, isActive := true }]

/-- `calculateDimensionRequestString(item)`: filter the time dimension out of
`item._dimensionInfo.ids`, then map each remaining dimension to `['']` when its
index in the filtered array equals the region dimension index, to its ids when
it has a single id, and otherwise to the ids selected by the next unconsumed
concept (`activeConceptValues[nextConceptIndex++]`); finally join each token
with `+` and the tokens with `.`. The map's callback is named out as
`requestTokenStep` so its consumption of the concept counter can be reasoned
about; `dimensionIndex` is the index in the already time-filtered array. -/
def requestTokenStep (activeConceptValues : List (List Nat))
    (regionDimensionIndex : Option Nat) (dimensionIndex nextConceptIndex : Nat)
    (theseIds : List String) : List String × Nat :=
  if some dimensionIndex = regionDimensionIndex then ([""], nextConceptIndex)
  else if theseIds.length = 1 then (theseIds, nextConceptIndex)
  else
    (((activeConceptValues.getD nextConceptIndex []).map
        (fun activeIndex => theseIds.getD activeIndex "")),
     nextConceptIndex + 1)

def calculateDimensionRequestString (item : ItemState) : String :=
  let activeConceptValues := calculateActiveConceptValues item.concepts
  let nonTimeDimensionIds := filterWithIndex
    (fun i _ => nonTimeDimensionFilter item.specialDimensions.timePeriodDimensionIndex i)
    item.dimensionInfoIds
  let activeDimensionValues := mapIdxState
    (requestTokenStep activeConceptValues item.specialDimensions.regionDimensionIndex)
    0 0 nonTimeDimensionIds
  String.intercalate "." (activeDimensionValues.map (fun values => String.intercalate "+" values))

/-- The filter-expression rule as the spec states it, for comparison with
`calculateDimensionRequestString`: for each non-time dimension in keyPosition
order (`o` is the original keyPosition), the token is `''` if it is the region
dimension, the single id if the dimension has exactly one id, and otherwise the
ids selected by that dimension's own concept (concepts are aligned, in order,
with the non-time, non-region, non-single-id dimensions). -/
def specRequestTokens (activeConceptValues : List (List Nat))
    (regionDimensionIndex timePeriodDimensionIndex : Option Nat) :
    Nat → Nat → List (List String) → List (List String)
  | _, _, [] => []
  | o, s, theseIds :: rest =>
    if some o = timePeriodDimensionIndex then
      specRequestTokens activeConceptValues regionDimensionIndex timePeriodDimensionIndex
        (o + 1) s rest
    else if some o = regionDimensionIndex then
      [""] :: specRequestTokens activeConceptValues regionDimensionIndex timePeriodDimensionIndex
        (o + 1) s rest
    else if theseIds.length = 1 then
      theseIds :: specRequestTokens activeConceptValues regionDimensionIndex
        timePeriodDimensionIndex (o + 1) s rest
    else
      ((activeConceptValues.getD s []).map (fun activeIndex => theseIds.getD activeIndex ""))
        :: specRequestTokens activeConceptValues regionDimensionIndex timePeriodDimensionIndex
            (o + 1) (s + 1) rest

/-- The whole filter-expression string as the spec's rule produces it. -/
def specDimensionRequestString (item : ItemState) : String :=
  String.intercalate "."
    ((specRequestTokens (calculateActiveConceptValues item.concepts)
        item.specialDimensions.regionDimensionIndex
        item.specialDimensions.timePeriodDimensionIndex 0 0 item.dimensionInfoIds).map
      (fun values => String.intercalate "+" values))

/-- The time-period dimension does not sit at or before the region dimension
(in keyPosition order); true in particular when either role is absent.
This is the usual SDMX layout: `TIME_PERIOD` is the last dimension. -/
def timeAfterRegion (sd : SpecialDimensions) : Bool :=
  match sd.regionDimensionIndex, sd.timePeriodDimensionIndex with
  | some r, some t => r < t
  | _, _ => true

/-- The URL that `changedActiveItems` assembles for the restricted re-fetch
(the `url` variable just before the `TODO: FOR TESTING ONLY` reset):
the item's URL, a `/` if missing, the filter-expression string, and `/all`. -/
def intendedRequestUrl (item : ItemState) : String :=
  let dimensionRequestString := calculateDimensionRequestString item
  let url := item.url
  let url := if url.toList.getLast? ≠ some '/' then url ++ "/" else url
  url ++ dimensionRequestString ++ "/all"

/-- The URL actually passed to `loadAndBuildTable` by `changedActiveItems` in
the dataflow (metadata-only) topology, or `none` when there is no dataflow URL
(the total-column-only branch). The source computes `intendedRequestUrl`, logs
it, then resets `url = item.url` (marked `TODO: FOR TESTING ONLY`) before
calling `loadAndBuildTable(item, url)`. -/
def changedActiveItemsFetchUrl (item : ItemState) : Option String :=
  match item.dataflowUrl with
  | none => none
  | some _ =>
    let url := intendedRequestUrl item
    let url := item.url
    some url

/-! ## Supporting lemmas about the JS array-helper embeddings -/

theorem jsIndexOf_nonneg_iff {α : Type} [DecidableEq α] (l : List α) (a : α) :
    0 ≤ jsIndexOf l a ↔ a ∈ l := by
  induction l with
  | nil => simp [jsIndexOf]
  | cons b t ih =>
    simp only [jsIndexOf, List.mem_cons]
    by_cases hb : b = a
    · simp [hb]
    · simp only [hb, if_false]
      by_cases hr : jsIndexOf t a < 0
      · have ht : a ∉ t := fun hm => absurd (ih.mpr hm) (by omega)
        simp only [hr, if_true]
        constructor
        · intro h; exact absurd h (by omega)
        · rintro (h | h)
          · exact absurd h.symm hb
          · exact absurd h ht
      · simp only [hr, if_false]
        constructor
        · intro _; exact Or.inr (ih.mp (by omega))
        · intro _; omega

theorem jsIndexOf_lt_length {α : Type} [DecidableEq α] (l : List α) (a : α) :
    jsIndexOf l a < (l.length : Int) := by
  induction l with
  | nil => simp [jsIndexOf]
  | cons b t ih =>
    simp only [jsIndexOf, List.length_cons]
    by_cases hb : b = a
    · simp only [hb, if_true]; push_cast; omega
    · simp only [hb, if_false]
      by_cases hr : jsIndexOf t a < 0
      · simp only [hr, if_true]; push_cast; omega
      · simp only [hr, if_false]; push_cast; omega

theorem getElem?_jsIndexOf {α : Type} [DecidableEq α] (l : List α) (a : α)
    (h : 0 ≤ jsIndexOf l a) : l[(jsIndexOf l a).toNat]? = some a := by
  induction l with
  | nil => simp [jsIndexOf] at h
  | cons b t ih =>
    simp only [jsIndexOf] at h ⊢
    by_cases hb : b = a
    · simp [hb]
    · simp only [hb, if_false] at h ⊢
      by_cases hr : jsIndexOf t a < 0
      · simp only [hr, if_true] at h; omega
      · simp only [hr, if_false] at h ⊢
        have h0 : 0 ≤ jsIndexOf t a := by omega
        have : (jsIndexOf t a + 1).toNat = (jsIndexOf t a).toNat + 1 := by omega
        rw [this]
        simpa using ih h0

theorem jsIndexOf_eq_of_nodup {α : Type} [DecidableEq α] {l : List α} {a : α}
    (hnd : l.Nodup) {i : Nat} (h : l[i]? = some a) : jsIndexOf l a = (i : Int) := by
  induction l generalizing i with
  | nil => simp at h
  | cons b t ih =>
    rcases List.nodup_cons.mp hnd with ⟨hb, ht⟩
    match i with
    | 0 =>
      simp only [List.getElem?_cons_zero, Option.some.injEq] at h
      simp [jsIndexOf, h]
    | j + 1 =>
      simp only [List.getElem?_cons_succ] at h
      have hmem : a ∈ t := List.getElem?_mem h
      have hba : ¬ b = a := fun hba => hb (hba ▸ hmem)
      have hj : jsIndexOf t a = (j : Int) := ih ht h
      simp only [jsIndexOf, hba, if_false, hj]
      have : ¬ ((j : Int) < 0) := by omega
      simp only [this, if_false]
      push_cast
      ring

theorem jsLastIndexOf_of_not_mem {α : Type} [DecidableEq α] {l : List α} {a : α}
    (h : a ∉ l) : jsLastIndexOf l a = -1 := by
  induction l with
  | nil => rfl
  | cons b t ih =>
    have ht : a ∉ t := fun hm => h (List.mem_cons_of_mem b hm)
    have hr : jsLastIndexOf t a = -1 := ih ht
    have hba : ¬ b = a := fun hba => h (hba ▸ List.mem_cons_self b t)
    simp [jsLastIndexOf, hr, hba]

theorem jsLastIndexOf_append_cons {α : Type} [DecidableEq α] (pre suf : List α) (a : α)
    (h : a ∉ suf) : jsLastIndexOf (pre ++ a :: suf) a = (pre.length : Int) := by
  induction pre with
  | nil =>
    have hr : jsLastIndexOf suf a = -1 := jsLastIndexOf_of_not_mem h
    simp [jsLastIndexOf, hr]
  | cons c pre ih =>
    rw [List.cons_append]
    simp only [jsLastIndexOf]
    rw [ih]
    have h0 : (0 : Int) ≤ (pre.length : Int) := by positivity
    rw [if_pos h0]
    simp only [List.length_cons]
    push_cast
    ring

theorem filterWithIndexAux_congr {α : Type} (p q : Nat → α → Bool) :
    ∀ (l : List α) (k : Nat), (∀ j, j < l.length → ∀ a, p (k + j) a = q (k + j) a) →
      filterWithIndexAux p k l = filterWithIndexAux q k l := by
  intro l
  induction l with
  | nil => intro k _; rfl
  | cons b t ih =>
    intro k h
    have h0 : p k b = q k b := by simpa using h 0 (by simp) b
    have ht : filterWithIndexAux p (k + 1) t = filterWithIndexAux q (k + 1) t := by
      apply ih
      intro j hj a
      have := h (j + 1) (by simpa using Nat.succ_lt_succ hj) a
      simpa [Nat.add_assoc, Nat.add_comm 1 j] using this
    simp only [filterWithIndexAux, h0, ht]

theorem filterWithIndex_congr {α : Type} (p q : Nat → α → Bool) (l : List α)
    (h : ∀ j, j < l.length → ∀ a, p j a = q j a) :
    filterWithIndex p l = filterWithIndex q l := by
  apply filterWithIndexAux_congr
  intro j hj a
  simpa using h j hj a

theorem getD_map_range {β : Type} (n : Nat) (f : Nat → β) {i : Nat} (h : i < n) (d : β) :
    ((List.range n).map f).getD i d = f i := by
  rw [List.getD_eq_getElem?_getD, List.getElem?_map, List.getElem?_range h]
  rfl

/-! ## C4: region column naming convention -/

/-- C4: for every region-type id, `getRegionColumnName` lower-cases the id and,
when the lower-cased id contains an underscore, inserts the literal `_code`
immediately before the final underscore; otherwise it appends `_code`. -/
theorem getRegionColumnName_naming_convention (s : List Char) :
    ('_' ∉ s.map Char.toLower →
      getRegionColumnName s = s.map Char.toLower ++ "_code".toList) ∧
    (∀ pre suf, s.map Char.toLower = pre ++ '_' :: suf → '_' ∉ suf →
      getRegionColumnName s = pre ++ "_code".toList ++ '_' :: suf) := by
  constructor
  · intro h
    have hr : jsLastIndexOf (s.map Char.toLower) '_' = -1 := jsLastIndexOf_of_not_mem h
    simp only [getRegionColumnName, hr]
    norm_num
  · intro pre suf heq h
    have hr : jsLastIndexOf (pre ++ '_' :: suf) '_' = (pre.length : Int) :=
      jsLastIndexOf_append_cons pre suf '_' h
    have h0 : (0 : Int) ≤ (pre.length : Int) := by positivity
    simp only [getRegionColumnName, heq, hr, h0, if_true]
    rw [Int.toNat_natCast, List.take_left, List.drop_left]

/-- C4 witness: the three naming examples of the claim, the underscore case
instantiating the theorem at `LGA_2013`. -/
theorem getRegionColumnName_naming_convention_witness :
    ("LGA_2013".toList.map Char.toLower = "lga".toList ++ '_' :: "2013".toList ∧
      '_' ∉ "2013".toList ∧
      getRegionColumnName "LGA_2013".toList =
        "lga".toList ++ "_code".toList ++ '_' :: "2013".toList) ∧
    getRegionColumnName "LGA_2013".toList = "lga_code_2013".toList ∧
    getRegionColumnName "LGA".toList = "lga_code".toList ∧
    getRegionColumnName "SA4".toList = "sa4_code".toList :=
  ⟨⟨by decide, by decide,
    (getRegionColumnName_naming_convention "LGA_2013".toList).2 "lga".toList "2013".toList
      (by decide) (by decide)⟩,
   by decide, by decide, by decide⟩

/-! ## C2: combination enumeration for dimension lengths [1,1,3,2] -/

/-- C2: whenever the time-filtered per-dimension value-index arrays are the
index ranges of lengths `[1,1,3,2]`, the enumerator produces exactly
`1*1*3*2 = 6` combinations, strictly increasing in lexicographic order (first
dimension slowest), starting `[0,0,0,0]` and ending `[0,0,2,1]`. -/
theorem shownDimensionCombinations_1132 (dimensionInfoValues : List (List Nat))
    (dimensionInfoNames : List (List String)) (timePeriodDimensionIndex : Option Nat)
    (h : filterWithIndex (fun i _ => nonTimeDimensionFilter timePeriodDimensionIndex i)
        dimensionInfoValues = [List.range 1, List.range 1, List.range 3, List.range 2]) :
    (calculateShownDimensionCombinations dimensionInfoValues dimensionInfoNames
        timePeriodDimensionIndex).values =
      [[0, 0, 0, 0], [0, 0, 0, 1], [0, 0, 1, 0], [0, 0, 1, 1], [0, 0, 2, 0], [0, 0, 2, 1]] ∧
    (calculateShownDimensionCombinations dimensionInfoValues dimensionInfoNames
        timePeriodDimensionIndex).values.length = 1 * 1 * 3 * 2 ∧
    List.Chain' (fun a b => a < b)
      (calculateShownDimensionCombinations dimensionInfoValues dimensionInfoNames
        timePeriodDimensionIndex).values := by
  have hv : (calculateShownDimensionCombinations dimensionInfoValues dimensionInfoNames
      timePeriodDimensionIndex).values =
      arrayProduct [List.range 1, List.range 1, List.range 3, List.range 2] := by
    simp only [calculateShownDimensionCombinations, h]
  rw [hv]
  refine ⟨by decide, by decide, ?_⟩
  have harr : arrayProduct [List.range 1, List.range 1, List.range 3, List.range 2] =
      [[0, 0, 0, 0], [0, 0, 0, 1], [0, 0, 1, 0], [0, 0, 1, 1], [0, 0, 2, 0], [0, 0, 2, 1]] := by
    decide
  rw [harr]
  simp only [List.chain'_cons, List.chain'_singleton, and_true]
  exact ⟨by decide, by decide, by decide, by decide, by decide⟩

/-- C2 witness: a five-dimension catalogue whose fifth dimension is the
time-period dimension and whose remaining value-index arrays have lengths
1, 1, 3 and 2. -/
theorem shownDimensionCombinations_1132_witness :
    filterWithIndex (fun i _ => nonTimeDimensionFilter (some 4) i)
        [[0], [0], [0, 1, 2], [0, 1], [0]] =
      [List.range 1, List.range 1, List.range 3, List.range 2] ∧
    (calculateShownDimensionCombinations [[0], [0], [0, 1, 2], [0, 1], [0]]
        [[""], [""], ["a", "b", "c"], ["x", "y"], [""]] (some 4)).values =
      [[0, 0, 0, 0], [0, 0, 0, 1], [0, 0, 1, 0], [0, 0, 1, 1], [0, 0, 2, 0], [0, 0, 2, 1]] :=
  ⟨by decide,
   (shownDimensionCombinations_1132 [[0], [0], [0, 1, 2], [0, 1], [0]]
      [[""], [""], ["a", "b", "c"], ["x", "y"], [""]] (some 4) (by decide)).1⟩

/-! ## C3: sparse-key misses yield null cells, never short columns -/

/-- C3: for every enumerated combination and region index below the region
count, `buildValueColumns` produces (totally, hence without an exception) a
column whose value list has length exactly the region count, and writes `null`
at every region whose substituted colon-joined key is absent from the sparse
observation map. -/
theorem buildValueColumns_null_on_missing_key
    (shownDimensionCombinations : ShownDimensionCombinations)
    (structureSeries : List StructureSeriesEntry) (series : SparseObservationMap)
    (specialDimensions : SpecialDimensions) (d : Nat)
    (hd : specialDimensions.regionDimensionIndex = some d) :
    (buildValueColumns shownDimensionCombinations structureSeries series
      specialDimensions).length = shownDimensionCombinations.values.length ∧
    ∀ cI, cI < shownDimensionCombinations.values.length →
      ((buildValueColumns shownDimensionCombinations structureSeries series
          specialDimensions).getD cI default).values.length =
        (structureSeries.getD d default).values.length ∧
      ∀ r, r < (structureSeries.getD d default).values.length →
        series.lookup (joinColon
            ((shownDimensionCombinations.values.getD cI []).set d r)) = none →
        ((buildValueColumns shownDimensionCombinations structureSeries series
            specialDimensions).getD cI default).values.getD r (some 0) = none := by
  constructor
  · simp [buildValueColumns]
  · intro cI hcI
    have hvals : ((buildValueColumns shownDimensionCombinations structureSeries series
        specialDimensions).getD cI default).values =
        (List.range ((structureSeries.getD d default).values.length)).map (fun regionIndex =>
          match series.lookup (joinColon
              ((shownDimensionCombinations.values.getD cI []).set d regionIndex)) with
          | some observations => firstObservationScalar observations
          | none => none) := by
      simp only [buildValueColumns, hd, Option.getD_some]
      rw [getD_map_range _ _ hcI]
    refine ⟨by rw [hvals]; simp, ?_⟩
    intro r hr hmiss
    rw [hvals, getD_map_range _ _ hr]
    rw [hmiss]

/-- C3 witness: one combination over a two-region catalogue with an empty
observation map; the single produced column keeps both rows and the missing
key at region 1 yields a null cell. -/
theorem buildValueColumns_null_on_missing_key_witness :
    (buildValueColumns ⟨[[0, 0]], [["Births"]]⟩
        [⟨0, "REGION", "Region", [⟨"R1", "R1"⟩, ⟨"R2", "R2"⟩]⟩] []
        ⟨some 0, none, 0, none⟩).length = 1 ∧
    ((buildValueColumns ⟨[[0, 0]], [["Births"]]⟩
        [⟨0, "REGION", "Region", [⟨"R1", "R1"⟩, ⟨"R2", "R2"⟩]⟩] []
        ⟨some 0, none, 0, none⟩).getD 0 default).values.length = 2 ∧
    ((buildValueColumns ⟨[[0, 0]], [["Births"]]⟩
        [⟨0, "REGION", "Region", [⟨"R1", "R1"⟩, ⟨"R2", "R2"⟩]⟩] []
        ⟨some 0, none, 0, none⟩).getD 0 default).values.getD 1 (some 0) = none :=
  ⟨(buildValueColumns_null_on_missing_key ⟨[[0, 0]], [["Births"]]⟩
      [⟨0, "REGION", "Region", [⟨"R1", "R1"⟩, ⟨"R2", "R2"⟩]⟩] []
      ⟨some 0, none, 0, none⟩ 0 rfl).1,
   ((buildValueColumns_null_on_missing_key ⟨[[0, 0]], [["Births"]]⟩
      [⟨0, "REGION", "Region", [⟨"R1", "R1"⟩, ⟨"R2", "R2"⟩]⟩] []
      ⟨some 0, none, 0, none⟩ 0 rfl).2 0 (by decide)).1,
   ((buildValueColumns_null_on_missing_key ⟨[[0, 0]], [["Births"]]⟩
      [⟨0, "REGION", "Region", [⟨"R1", "R1"⟩, ⟨"R2", "R2"⟩]⟩] []
      ⟨some 0, none, 0, none⟩ 0 rfl).2 0 (by decide)).2 1 (by decide) (by decide)⟩

/-! ## C6: which entry wins when several share a role id -/

theorem find?_append {α : Type} (p : α → Bool) (l₂ : List α) :
    ∀ l₁ : List α, (l₁ ++ l₂).find? p =
      match l₁.find? p with
      | some x => some x
      | none => l₂.find? p := by
  intro l₁
  induction l₁ with
  | nil => simp
  | cons b t ih =>
    by_cases hb : p b
    · simp [List.find?_cons, hb]
    · simp only [List.cons_append, List.find?_cons, hb]
      simpa using ih

/-- Per-field characterization of the special-role fold: each role slot ends up
holding the `keyPosition` of the last entry (in source order) whose id reached
that branch of the `if`/`else if` chain, or the initial value if none did. -/
theorem specialDimensions_foldl_characterization (roleIds : RoleIds) :
    ∀ (ss : List StructureSeriesEntry) (init : SpecialDimensions),
      ((ss.foldl (specialDimensionStep roleIds) init).regionDimensionIndex =
        (ss.reverse.find? (fun e => decide (e.id = roleIds.regionDimensionId))).elim
          init.regionDimensionIndex (fun e => some e.keyPosition)) ∧
      ((ss.foldl (specialDimensionStep roleIds) init).regionTypeDimensionIndex =
        (ss.reverse.find? (fun e => decide (e.id ≠ roleIds.regionDimensionId ∧
            e.id = roleIds.regionTypeDimensionId))).elim
          init.regionTypeDimensionIndex (fun e => some e.keyPosition)) ∧
      ((ss.foldl (specialDimensionStep roleIds) init).regionTypeCount =
        (ss.reverse.find? (fun e => decide (e.id ≠ roleIds.regionDimensionId ∧
            e.id = roleIds.regionTypeDimensionId))).elim
          init.regionTypeCount (fun e => e.values.length)) ∧
      ((ss.foldl (specialDimensionStep roleIds) init).timePeriodDimensionIndex =
        (ss.reverse.find? (fun e => decide (e.id ≠ roleIds.regionDimensionId ∧
            e.id ≠ roleIds.regionTypeDimensionId ∧
            e.id = roleIds.timePeriodDimensionId))).elim
          init.timePeriodDimensionIndex (fun e => some e.keyPosition)) := by
  intro ss
  induction ss with
  | nil => intro init; simp
  | cons e t ih =>
    intro init
    have hfold : (e :: t).foldl (specialDimensionStep roleIds) init =
        t.foldl (specialDimensionStep roleIds) (specialDimensionStep roleIds init e) := rfl
    have hrev : (e :: t).reverse = t.reverse ++ [e] := by simp
    rcases ih (specialDimensionStep roleIds init e) with ⟨ih1, ih2, ih3, ih4⟩
    refine ⟨?_, ?_, ?_, ?_⟩
    · rw [hfold, hrev, find?_append, ih1]
      cases hc : t.reverse.find? (fun e => decide (e.id = roleIds.regionDimensionId)) with
      | some x => rfl
      | none =>
        by_cases h1 : e.id = roleIds.regionDimensionId
        · have hf : List.find? (fun e => decide (e.id = roleIds.regionDimensionId)) [e] =
              some e := by simp [List.find?, h1]
          rw [hf]
          show (specialDimensionStep roleIds init e).regionDimensionIndex = some e.keyPosition
          simp [specialDimensionStep, h1]
        · have hf : List.find? (fun e => decide (e.id = roleIds.regionDimensionId)) [e] =
              none := by simp [List.find?, h1]
          rw [hf]
          show (specialDimensionStep roleIds init e).regionDimensionIndex =
            init.regionDimensionIndex
          simp only [specialDimensionStep, if_neg h1]
          split_ifs <;> rfl
    · rw [hfold, hrev, find?_append, ih2]
      cases hc : t.reverse.find? (fun e => decide (e.id ≠ roleIds.regionDimensionId ∧
          e.id = roleIds.regionTypeDimensionId)) with
      | some x => rfl
      | none =>
        by_cases h1 : e.id = roleIds.regionDimensionId
        · have hf : List.find? (fun e => decide (e.id ≠ roleIds.regionDimensionId ∧
              e.id = roleIds.regionTypeDimensionId)) [e] = none := by simp [List.find?, h1]
          rw [hf]
          show (specialDimensionStep roleIds init e).regionTypeDimensionIndex =
            init.regionTypeDimensionIndex
          simp [specialDimensionStep, h1]
        · by_cases h2 : e.id = roleIds.regionTypeDimensionId
          · have h1x : ¬ roleIds.regionTypeDimensionId = roleIds.regionDimensionId :=
              fun hh => h1 (h2.trans hh)
            have hf : List.find? (fun e => decide (e.id ≠ roleIds.regionDimensionId ∧
                e.id = roleIds.regionTypeDimensionId)) [e] = some e := by
              simp [List.find?, h2, h1x]
            rw [hf]
            show (specialDimensionStep roleIds init e).regionTypeDimensionIndex =
              some e.keyPosition
            simp only [specialDimensionStep, if_neg h1, if_pos h2]
          · have hf : List.find? (fun e => decide (e.id ≠ roleIds.regionDimensionId ∧
                e.id = roleIds.regionTypeDimensionId)) [e] = none := by
              simp [List.find?, h2]
            rw [hf]
            show (specialDimensionStep roleIds init e).regionTypeDimensionIndex =
              init.regionTypeDimensionIndex
            simp only [specialDimensionStep, if_neg h1, if_neg h2]
            split_ifs <;> rfl
    · rw [hfold, hrev, find?_append, ih3]
      cases hc : t.reverse.find? (fun e => decide (e.id ≠ roleIds.regionDimensionId ∧
          e.id = roleIds.regionTypeDimensionId)) with
      | some x => rfl
      | none =>
        by_cases h1 : e.id = roleIds.regionDimensionId
        · have hf : List.find? (fun e => decide (e.id ≠ roleIds.regionDimensionId ∧
              e.id = roleIds.regionTypeDimensionId)) [e] = none := by simp [List.find?, h1]
          rw [hf]
          show (specialDimensionStep roleIds init e).regionTypeCount = init.regionTypeCount
          simp [specialDimensionStep, h1]
        · by_cases h2 : e.id = roleIds.regionTypeDimensionId
          · have h1x : ¬ roleIds.regionTypeDimensionId = roleIds.regionDimensionId :=
              fun hh => h1 (h2.trans hh)
            have hf : List.find? (fun e => decide (e.id ≠ roleIds.regionDimensionId ∧
                e.id = roleIds.regionTypeDimensionId)) [e] = some e := by
              simp [List.find?, h2, h1x]
            rw [hf]
            show (specialDimensionStep roleIds init e).regionTypeCount = e.values.length
            simp only [specialDimensionStep, if_neg h1, if_pos h2]
          · have hf : List.find? (fun e => decide (e.id ≠ roleIds.regionDimensionId ∧
                e.id = roleIds.regionTypeDimensionId)) [e] = none := by
              simp [List.find?, h2]
            rw [hf]
            show (specialDimensionStep roleIds init e).regionTypeCount = init.regionTypeCount
            simp only [specialDimensionStep, if_neg h1, if_neg h2]
            split_ifs <;> rfl
    · rw [hfold, hrev, find?_append, ih4]
      cases hc : t.reverse.find? (fun e => decide (e.id ≠ roleIds.regionDimensionId ∧
          e.id ≠ roleIds.regionTypeDimensionId ∧ e.id = roleIds.timePeriodDimensionId)) with
      | some x => rfl
      | none =>
        by_cases h1 : e.id = roleIds.regionDimensionId
        · have hf : List.find? (fun e => decide (e.id ≠ roleIds.regionDimensionId ∧
              e.id ≠ roleIds.regionTypeDimensionId ∧ e.id = roleIds.timePeriodDimensionId)) [e] =
              none := by simp [List.find?, h1]
          rw [hf]
          show (specialDimensionStep roleIds init e).timePeriodDimensionIndex =
            init.timePeriodDimensionIndex
          simp [specialDimensionStep, h1]
        · by_cases h2 : e.id = roleIds.regionTypeDimensionId
          · have hf : List.find? (fun e => decide (e.id ≠ roleIds.regionDimensionId ∧
                e.id ≠ roleIds.regionTypeDimensionId ∧ e.id = roleIds.timePeriodDimensionId)) [e] =
                none := by simp [List.find?, h2]
            rw [hf]
            show (specialDimensionStep roleIds init e).timePeriodDimensionIndex =
              init.timePeriodDimensionIndex
            simp only [specialDimensionStep, if_neg h1, if_pos h2]
          · by_cases h3 : e.id = roleIds.timePeriodDimensionId
            · have h1x : ¬ roleIds.timePeriodDimensionId = roleIds.regionDimensionId :=
                fun hh => h1 (h3.trans hh)
              have h2x : ¬ roleIds.timePeriodDimensionId = roleIds.regionTypeDimensionId :=
                fun hh => h2 (h3.trans hh)
              have hf : List.find? (fun e => decide (e.id ≠ roleIds.regionDimensionId ∧
                  e.id ≠ roleIds.regionTypeDimensionId ∧
                  e.id = roleIds.timePeriodDimensionId)) [e] = some e := by
                simp [List.find?, h3, h1x, h2x]
              rw [hf]
              show (specialDimensionStep roleIds init e).timePeriodDimensionIndex =
                some e.keyPosition
              simp only [specialDimensionStep, if_neg h1, if_neg h2, if_pos h3]
            · have hf : List.find? (fun e => decide (e.id ≠ roleIds.regionDimensionId ∧
                  e.id ≠ roleIds.regionTypeDimensionId ∧
                  e.id = roleIds.timePeriodDimensionId)) [e] = none := by
                simp [List.find?, h3]
              rw [hf]
              show (specialDimensionStep roleIds init e).timePeriodDimensionIndex =
                init.timePeriodDimensionIndex
              simp only [specialDimensionStep, if_neg h1, if_neg h2, if_neg h3]
/-- C6 counterexample: with two entries whose ids both equal the configured
region id (`REGION`), the resolver records the keyPosition of the second
(last) matching entry, not the first, refuting first-match-wins. -/
theorem specialDimensions_first_match_counterexample :
    (calculateSpecialDimensions defaultRoleIds
      [⟨0, "REGION", "first region dim", []⟩,
       ⟨1, "REGION", "second region dim", []⟩]).regionDimensionIndex = some 1 ∧
    (calculateSpecialDimensions defaultRoleIds
      [⟨0, "REGION", "first region dim", []⟩,
       ⟨1, "REGION", "second region dim", []⟩]).regionDimensionIndex ≠ some 0 := by
  constructor
  · rfl
  · decide

/-- C6 amended: the special-role resolver records, per role, the keyPosition
of the LAST entry (in source-array order) whose id reaches that role's branch
of the `if`/`else if` chain — an entry matching an earlier role's id is never
considered for later roles — and each role holds at most one index. -/
theorem calculateSpecialDimensions_last_match (roleIds : RoleIds)
    (structureSeries : List StructureSeriesEntry) :
    ((calculateSpecialDimensions roleIds structureSeries).regionDimensionIndex =
      (structureSeries.reverse.find?
        (fun e => decide (e.id = roleIds.regionDimensionId))).elim none
        (fun e => some e.keyPosition)) ∧
    ((calculateSpecialDimensions roleIds structureSeries).regionTypeDimensionIndex =
      (structureSeries.reverse.find? (fun e => decide (e.id ≠ roleIds.regionDimensionId ∧
          e.id = roleIds.regionTypeDimensionId))).elim none
        (fun e => some e.keyPosition)) ∧
    ((calculateSpecialDimensions roleIds structureSeries).regionTypeCount =
      (structureSeries.reverse.find? (fun e => decide (e.id ≠ roleIds.regionDimensionId ∧
          e.id = roleIds.regionTypeDimensionId))).elim 0 (fun e => e.values.length)) ∧
    ((calculateSpecialDimensions roleIds structureSeries).timePeriodDimensionIndex =
      (structureSeries.reverse.find? (fun e => decide (e.id ≠ roleIds.regionDimensionId ∧
          e.id ≠ roleIds.regionTypeDimensionId ∧
          e.id = roleIds.timePeriodDimensionId))).elim none (fun e => some e.keyPosition)) :=
  specialDimensions_foldl_characterization roleIds structureSeries
    { regionDimensionIndex := none, regionTypeDimensionIndex := none,
      regionTypeCount := 0, timePeriodDimensionIndex := none }

/-! ## C7: when is a total column produced? -/

/-- C7 counterexample: one top-level concept whose only child is toggled off.
The active-combination list is empty, yet `buildTotalColumns` still produces a
`'Total selected'` column (summing no columns), refuting the claim that no
total column is produced whenever the active-combination list is empty. -/
theorem totalColumn_empty_active_counterexample :
    arrayProduct (calculateActiveConceptValues [[false]]) = [] ∧
    buildTotalColumns
      { url := "", dataflowUrl := none, concepts := [[false]], combinations := [[0]],
        dimensionInfoIds := [], tableColumns :=
          [⟨"lga_code", [], false⟩, ⟨"A", [some 1, none], false⟩],
        specialDimensions := ⟨none, none, 0, none⟩ } ≠ [] ∧
    buildTotalColumns
      { url := "", dataflowUrl := none, concepts := [[false]], combinations := [[0]],
        dimensionInfoIds := [], tableColumns :=
          [⟨"lga_code", [], false⟩, ⟨"A", [some 1, none], false⟩],
        specialDimensions := ⟨none, none, 0, none⟩ } =
      [⟨"Total selected", [], true⟩] := by
  refine ⟨rfl, ?_, rfl⟩
  decide

/-- C7 amended: `buildTotalColumns` produces no total column exactly when the
list of top-level concepts is empty; whenever at least one concept exists it
produces a (single) total column, even if the active-combination list is
empty — e.g. when every child of some concept is toggled off. -/
theorem buildTotalColumns_empty_iff_no_concepts (item : ItemState) :
    buildTotalColumns item = [] ↔ item.concepts = [] := by
  cases hc : item.concepts with
  | nil => simp [buildTotalColumns, calculateActiveConceptValues, hc]
  | cons c t =>
    simp [buildTotalColumns, calculateActiveConceptValues, hc]

/-! ## C8: the metadata-topology re-fetch URL -/

/-- A metadata-only (dataflow) item: two-valued concept dimension with ids
`BD_2`/`BD_4`, both children active, plus a singleton dimension `A`. -/
def dataflowExampleItem : ItemState :=
  { url := "http://example.org/sdmx-json/data/FOO", dataflowUrl := some "dataflow",
    concepts := [[true, true]],
    combinations := [[0], [1]],
    dimensionInfoIds := [["BD_2", "BD_4"], ["A"]],
    tableColumns := [],
    specialDimensions :=
      { regionDimensionIndex := none, regionTypeDimensionIndex := none,
        regionTypeCount := 0, timePeriodDimensionIndex := none } }

/-- C8: `changedActiveItems` assembles the restricted URL
(base + `/` + filter-expression + `/all`) but then resets it to the item's
plain URL (the line marked `TODO: FOR TESTING ONLY`), so the data fetch it
triggers is NOT restricted to the active selections: the fetched URL is
`item.url`, not the assembled one. -/
theorem changedActiveItems_fetch_ignores_selection :
    changedActiveItemsFetchUrl dataflowExampleItem =
      some "http://example.org/sdmx-json/data/FOO" ∧
    intendedRequestUrl dataflowExampleItem =
      "http://example.org/sdmx-json/data/FOO/BD_2+BD_4.A/all" ∧
    changedActiveItemsFetchUrl dataflowExampleItem ≠
      some (intendedRequestUrl dataflowExampleItem) := by
  refine ⟨rfl, by decide, ?_⟩
  decide

/-! ## C10: the malformed-catalogue diagnostic -/

theorem removeIndex_missing (r : ShownDimensionInfo) (i : Option Nat) :
    (removeIndex r i).missingDimensionReported = r.missingDimensionReported := by
  cases i <;> rfl

theorem calcShown_missing (structureSeries : List StructureSeriesEntry)
    (specialDimensions : Option SpecialDimensions) :
    (calculateShownDimensionNamesAndValues structureSeries
        specialDimensions).missingDimensionReported =
      decide (0 ≤ jsIndexOf
        (structureSeries.foldl shownDimensionStep
          (initialShownDimensionInfo structureSeries.length)).values none) := by
  unfold calculateShownDimensionNamesAndValues
  cases specialDimensions with
  | none => rfl
  | some sd => rw [removeIndex_missing, removeIndex_missing]

theorem shownDimensionStep_foldl_all_isSome :
    ∀ (ss : List StructureSeriesEntry) (st : ShownDimensionInfo),
      (∀ x ∈ st.values, x.isSome = true) →
      ∀ x ∈ (ss.foldl shownDimensionStep st).values, x.isSome = true := by
  intro ss
  induction ss with
  | nil => intro st h; exact h
  | cons e t ih =>
    intro st h
    refine ih _ ?_
    intro x hx
    rcases List.mem_or_eq_of_mem_set hx with hx' | rfl
    · exact h x hx'
    · rfl

/-- C10: the diagnostic for an unfilled keyPosition slot is dead code — since
the `values` slots are pre-initialised to (defined) empty arrays, the
`indexOf(undefined)` check never fires, so a catalogue whose keyPositions
leave slot 1 unfilled (here: two entries both at keyPosition 0) produces no
report; the unfilled slot keeps its empty (length-zero) index array. -/
theorem decoder_missing_slot_never_reported :
    (∀ (structureSeries : List StructureSeriesEntry)
       (specialDimensions : Option SpecialDimensions),
      (calculateShownDimensionNamesAndValues structureSeries
        specialDimensions).missingDimensionReported = false) ∧
    (calculateShownDimensionNamesAndValues
        [⟨0, "A", "dim A", [⟨"a", "a"⟩]⟩, ⟨0, "B", "dim B", [⟨"b", "b"⟩, ⟨"b2", "b2"⟩]⟩]
        none).values.getD 1 none = some [] ∧
    ((calculateShownDimensionNamesAndValues
        [⟨0, "A", "dim A", [⟨"a", "a"⟩]⟩, ⟨0, "B", "dim B", [⟨"b", "b"⟩, ⟨"b2", "b2"⟩]⟩]
        none).values.getD 1 none).getD [] = ([] : List Nat) := by
  refine ⟨?_, rfl, rfl⟩
  intro ss sd
  rw [calcShown_missing]
  have hall := shownDimensionStep_foldl_all_isSome ss
    (initialShownDimensionInfo ss.length)
    (by
      intro x hx
      rw [List.eq_of_mem_replicate hx]
      rfl)
  have hnone : (none : Option (List Nat)) ∉
      (ss.foldl shownDimensionStep (initialShownDimensionInfo ss.length)).values := by
    intro hmem
    simpa using hall none hmem
  exact decide_eq_false (fun hge => hnone ((jsIndexOf_nonneg_iff _ _).mp hge))

/-! ## C5: lengths of the decoder's per-dimension arrays -/

theorem shownDimension_foldl_lengths :
    ∀ (ss : List StructureSeriesEntry) (st : ShownDimensionInfo),
      ((ss.foldl shownDimensionStep st).values.length = st.values.length) ∧
      ((ss.foldl shownDimensionStep st).names.length = st.names.length) ∧
      ((ss.foldl shownDimensionStep st).ids.length = st.ids.length) := by
  intro ss
  induction ss with
  | nil => intro st; exact ⟨rfl, rfl, rfl⟩
  | cons e t ih =>
    intro st
    rcases ih (shownDimensionStep st e) with ⟨h1, h2, h3⟩
    exact ⟨h1.trans (by simp [shownDimensionStep]), h2.trans (by simp [shownDimensionStep]),
      h3.trans (by simp [shownDimensionStep])⟩

/-- Each slot of the fold's `values`/`names`/`ids` arrays holds the data of the
last entry whose `keyPosition` equals that slot, or the initial slot content if
no entry hits it. -/
theorem shownDimension_foldl_slot :
    ∀ (ss : List StructureSeriesEntry) (st : ShownDimensionInfo) (dim : Nat),
      dim < st.values.length → dim < st.names.length → dim < st.ids.length →
      ((ss.foldl shownDimensionStep st).values.getD dim none =
        (ss.reverse.find? (fun x => decide (x.keyPosition = dim))).elim
          (st.values.getD dim none) (fun e => some (List.range e.values.length))) ∧
      ((ss.foldl shownDimensionStep st).names.getD dim none =
        (ss.reverse.find? (fun x => decide (x.keyPosition = dim))).elim
          (st.names.getD dim none)
          (fun e => some (if e.values.length > 1 then
            e.values.map (fun nameAndId => nameAndId.name) else [""]))) ∧
      ((ss.foldl shownDimensionStep st).ids.getD dim none =
        (ss.reverse.find? (fun x => decide (x.keyPosition = dim))).elim
          (st.ids.getD dim none)
          (fun e => some (e.values.map (fun nameAndId => nameAndId.id)))) := by
  intro ss
  induction ss with
  | nil => intro st dim hv hn hi; exact ⟨rfl, rfl, rfl⟩
  | cons e t ih =>
    intro st dim hv hn hi
    have hfold : (e :: t).foldl shownDimensionStep st =
        t.foldl shownDimensionStep (shownDimensionStep st e) := rfl
    have hrev : (e :: t).reverse = t.reverse ++ [e] := by simp
    have hv' : dim < (shownDimensionStep st e).values.length := by
      simpa [shownDimensionStep] using hv
    have hn' : dim < (shownDimensionStep st e).names.length := by
      simpa [shownDimensionStep] using hn
    have hi' : dim < (shownDimensionStep st e).ids.length := by
      simpa [shownDimensionStep] using hi
    rcases ih (shownDimensionStep st e) dim hv' hn' hi' with ⟨ih1, ih2, ih3⟩
    refine ⟨?_, ?_, ?_⟩
    · rw [hfold, hrev, find?_append, ih1]
      cases hc : t.reverse.find? (fun x => decide (x.keyPosition = dim)) with
      | some x => rfl
      | none =>
        by_cases hkp : e.keyPosition = dim
        · have hf : List.find? (fun x => decide (x.keyPosition = dim)) [e] = some e := by
            simp [List.find?, hkp]
          rw [hf]
          show (shownDimensionStep st e).values.getD dim none =
            some (List.range e.values.length)
          subst hkp
          simp only [shownDimensionStep]
          rw [List.getD_eq_getElem?_getD, List.getElem?_set_self hv]
          rfl
        · have hf : List.find? (fun x => decide (x.keyPosition = dim)) [e] = none := by
            simp [List.find?, hkp]
          rw [hf]
          show (shownDimensionStep st e).values.getD dim none = st.values.getD dim none
          simp only [shownDimensionStep]
          rw [List.getD_eq_getElem?_getD, List.getD_eq_getElem?_getD,
            List.getElem?_set_ne hkp]
    · rw [hfold, hrev, find?_append, ih2]
      cases hc : t.reverse.find? (fun x => decide (x.keyPosition = dim)) with
      | some x => rfl
      | none =>
        by_cases hkp : e.keyPosition = dim
        · have hf : List.find? (fun x => decide (x.keyPosition = dim)) [e] = some e := by
            simp [List.find?, hkp]
          rw [hf]
          show (shownDimensionStep st e).names.getD dim none =
            some (if e.values.length > 1 then
              e.values.map (fun nameAndId => nameAndId.name) else [""])
          subst hkp
          simp only [shownDimensionStep]
          rw [List.getD_eq_getElem?_getD, List.getElem?_set_self hn]
          rfl
        · have hf : List.find? (fun x => decide (x.keyPosition = dim)) [e] = none := by
            simp [List.find?, hkp]
          rw [hf]
          show (shownDimensionStep st e).names.getD dim none = st.names.getD dim none
          simp only [shownDimensionStep]
          rw [List.getD_eq_getElem?_getD, List.getD_eq_getElem?_getD,
            List.getElem?_set_ne hkp]
    · rw [hfold, hrev, find?_append, ih3]
      cases hc : t.reverse.find? (fun x => decide (x.keyPosition = dim)) with
      | some x => rfl
      | none =>
        by_cases hkp : e.keyPosition = dim
        · have hf : List.find? (fun x => decide (x.keyPosition = dim)) [e] = some e := by
            simp [List.find?, hkp]
          rw [hf]
          show (shownDimensionStep st e).ids.getD dim none =
            some (e.values.map (fun nameAndId => nameAndId.id))
          subst hkp
          simp only [shownDimensionStep]
          rw [List.getD_eq_getElem?_getD, List.getElem?_set_self hi]
          rfl
        · have hf : List.find? (fun x => decide (x.keyPosition = dim)) [e] = none := by
            simp [List.find?, hkp]
          rw [hf]
          show (shownDimensionStep st e).ids.getD dim none = st.ids.getD dim none
          simp only [shownDimensionStep]
          rw [List.getD_eq_getElem?_getD, List.getD_eq_getElem?_getD,
            List.getElem?_set_ne hkp]

theorem removeIndex_ids (r : ShownDimensionInfo) (i : Option Nat) :
    (removeIndex r i).ids = r.ids := by
  cases i <;> rfl

theorem removeIndex_values_length (r : ShownDimensionInfo) (i : Option Nat) :
    (removeIndex r i).values.length = r.values.length := by
  cases i <;> simp [removeIndex]

theorem removeIndex_values_getD_eq (r : ShownDimensionInfo) (dim : Nat)
    (h : dim < r.values.length) :
    (removeIndex r (some dim)).values.getD dim none =
      (r.values.getD dim none).map (fun v => v.take 1) := by
  simp only [removeIndex]
  rw [List.getD_eq_getElem?_getD, List.getElem?_set_self h]
  rfl

theorem removeIndex_values_getD_ne (r : ShownDimensionInfo) (i : Option Nat) (dim : Nat)
    (h : i ≠ some dim) :
    (removeIndex r i).values.getD dim none = r.values.getD dim none := by
  cases i with
  | none => rfl
  | some j =>
    have hj : j ≠ dim := fun hh => h (by rw [hh])
    simp only [removeIndex]
    rw [List.getD_eq_getElem?_getD, List.getElem?_set_ne hj]
    exact (List.getD_eq_getElem?_getD _ _ _).symm

theorem removeIndex_names_getD_eq (r : ShownDimensionInfo) (dim : Nat)
    (h : dim < r.names.length) :
    (removeIndex r (some dim)).names.getD dim none = some [""] := by
  simp only [removeIndex]
  rw [List.getD_eq_getElem?_getD, List.getElem?_set_self h]
  rfl

theorem removeIndex_names_getD_ne (r : ShownDimensionInfo) (i : Option Nat) (dim : Nat)
    (h : i ≠ some dim) :
    (removeIndex r i).names.getD dim none = r.names.getD dim none := by
  cases i with
  | none => rfl
  | some j =>
    have hj : j ≠ dim := fun hh => h (by rw [hh])
    simp only [removeIndex]
    rw [List.getD_eq_getElem?_getD, List.getElem?_set_ne hj]
    exact (List.getD_eq_getElem?_getD _ _ _).symm

theorem removeIndex_names_length (r : ShownDimensionInfo) (i : Option Nat) :
    (removeIndex r i).names.length = r.names.length := by
  cases i <;> simp [removeIndex]

/-- Effect of blanking the region and then the time-period special dimensions
on one slot: an un-blanked slot keeps its contents; a blanked slot's `values`
entry is cut to length 1 (given it was non-empty) and its `names` entry
becomes `[""]`. -/
theorem removeIndex2_slot (B : ShownDimensionInfo) (R T : Option Nat) (dim : Nat)
    (hlenV : dim < B.values.length) (hlenN : dim < B.names.length)
    (vl0 : List Nat) (nl0 : List String)
    (hv : B.values.getD dim none = some vl0) (hn : B.names.getD dim none = some nl0) :
    ∃ vl nl,
      (removeIndex (removeIndex B R) T).values.getD dim none = some vl ∧
      (removeIndex (removeIndex B R) T).names.getD dim none = some nl ∧
      ((R ≠ some dim ∧ T ≠ some dim) → (vl = vl0 ∧ nl = nl0)) ∧
      ((R = some dim ∨ T = some dim) → 1 ≤ vl0.length →
        (vl.length = 1 ∧ nl = [""])) := by
  have hlenV1 : dim < (removeIndex B R).values.length := by
    rw [removeIndex_values_length]; exact hlenV
  have hlenN1 : dim < (removeIndex B R).names.length := by
    rw [removeIndex_names_length]; exact hlenN
  by_cases hT : T = some dim
  · subst hT
    by_cases hR : R = some dim
    · subst hR
      refine ⟨(vl0.take 1).take 1, [""], ?_, ?_, ?_, ?_⟩
      · rw [removeIndex_values_getD_eq _ _ hlenV1, removeIndex_values_getD_eq _ _ hlenV,
          hv]
        rfl
      · exact removeIndex_names_getD_eq _ _ hlenN1
      · rintro ⟨h, _⟩; exact absurd rfl h
      · intro _ h1
        refine ⟨?_, rfl⟩
        simp
        omega
    · refine ⟨vl0.take 1, [""], ?_, ?_, ?_, ?_⟩
      · rw [removeIndex_values_getD_eq _ _ hlenV1, removeIndex_values_getD_ne _ _ _ hR,
          hv]
        rfl
      · exact removeIndex_names_getD_eq _ _ hlenN1
      · rintro ⟨_, h⟩; exact absurd rfl h
      · intro _ h1
        refine ⟨?_, rfl⟩
        simp
        omega
  · by_cases hR : R = some dim
    · subst hR
      refine ⟨vl0.take 1, [""], ?_, ?_, ?_, ?_⟩
      · rw [removeIndex_values_getD_ne _ _ _ hT, removeIndex_values_getD_eq _ _ hlenV,
          hv]
        rfl
      · rw [removeIndex_names_getD_ne _ _ _ hT]
        exact removeIndex_names_getD_eq _ _ hlenN
      · rintro ⟨h, _⟩; exact absurd rfl h
      · intro _ h1
        refine ⟨?_, rfl⟩
        simp
        omega
    · refine ⟨vl0, nl0, ?_, ?_, ?_, ?_⟩
      · rw [removeIndex_values_getD_ne _ _ _ hT, removeIndex_values_getD_ne _ _ _ hR]
        exact hv
      · rw [removeIndex_names_getD_ne _ _ _ hT, removeIndex_names_getD_ne _ _ _ hR]
        exact hn
      · intro _; exact ⟨rfl, rfl⟩
      · rintro (h | h) _
        · exact absurd h hR
        · exact absurd h hT

theorem calcShown_eq (ss : List StructureSeriesEntry) (sd : SpecialDimensions) :
    calculateShownDimensionNamesAndValues ss (some sd) =
      removeIndex (removeIndex
        { ss.foldl shownDimensionStep (initialShownDimensionInfo ss.length) with
          missingDimensionReported := decide (0 ≤ jsIndexOf
            (ss.foldl shownDimensionStep (initialShownDimensionInfo ss.length)).values none) }
        sd.regionDimensionIndex) sd.timePeriodDimensionIndex := rfl

/-- C5 counterexample: a catalogue whose only dimension is a two-valued
region dimension, blanked as the region special dimension. After blanking,
`values[0]` has length 1 but `ids[0]` keeps length 2, refuting the claimed
three-way length equality for decoder output with special dimensions blanked. -/
theorem decoder_ids_length_counterexample :
    ((calculateShownDimensionNamesAndValues
        [⟨0, "REGION", "Region", [⟨"R1", "R1"⟩, ⟨"R2", "R2"⟩]⟩]
        (some ⟨some 0, none, 0, none⟩)).values.getD 0 none).map List.length = some 1 ∧
    ((calculateShownDimensionNamesAndValues
        [⟨0, "REGION", "Region", [⟨"R1", "R1"⟩, ⟨"R2", "R2"⟩]⟩]
        (some ⟨some 0, none, 0, none⟩)).ids.getD 0 none).map List.length = some 2 ∧
    ((calculateShownDimensionNamesAndValues
        [⟨0, "REGION", "Region", [⟨"R1", "R1"⟩, ⟨"R2", "R2"⟩]⟩]
        (some ⟨some 0, none, 0, none⟩)).values.getD 0 none).map List.length ≠
      ((calculateShownDimensionNamesAndValues
        [⟨0, "REGION", "Region", [⟨"R1", "R1"⟩, ⟨"R2", "R2"⟩]⟩]
        (some ⟨some 0, none, 0, none⟩)).ids.getD 0 none).map List.length := by
  refine ⟨rfl, rfl, ?_⟩
  decide

/-- C5 amended: for a catalogue covering every keyPosition slot, with every
dimension non-empty, each slot of the decoder output (after region/time
blanking) has `values` and `names` of equal length, and additionally
`ids` of that same length at every slot that is not a blanked special
dimension; at a blanked slot `ids` keeps the dimension's original length. -/
theorem decoder_length_invariant_amended (structureSeries : List StructureSeriesEntry)
    (sd : SpecialDimensions)
    (hcov : ∀ dim, dim < structureSeries.length →
      ∃ e ∈ structureSeries, e.keyPosition = dim)
    (hvals : ∀ e ∈ structureSeries, 1 ≤ e.values.length) :
    ∀ dim, dim < structureSeries.length →
      ∃ vl nl il,
        (calculateShownDimensionNamesAndValues structureSeries (some sd)).values.getD dim none
          = some vl ∧
        (calculateShownDimensionNamesAndValues structureSeries (some sd)).names.getD dim none
          = some nl ∧
        (calculateShownDimensionNamesAndValues structureSeries (some sd)).ids.getD dim none
          = some il ∧
        vl.length = nl.length ∧
        (sd.regionDimensionIndex ≠ some dim → sd.timePeriodDimensionIndex ≠ some dim →
          vl.length = il.length) := by
  intro dim hdim
  obtain ⟨e0, he0, hkp0⟩ := hcov dim hdim
  have hsome : (structureSeries.reverse.find?
      (fun x => decide (x.keyPosition = dim))).isSome := by
    rw [List.find?_isSome]
    exact ⟨e0, List.mem_reverse.mpr he0, by simp [hkp0]⟩
  obtain ⟨e, he⟩ := Option.isSome_iff_exists.mp hsome
  have hmem : e ∈ structureSeries := List.mem_reverse.mp (List.mem_of_find?_eq_some he)
  have hlen1 : 1 ≤ e.values.length := hvals e hmem
  have hinitv : dim < (initialShownDimensionInfo structureSeries.length).values.length := by
    simpa [initialShownDimensionInfo] using hdim
  have hinitn : dim < (initialShownDimensionInfo structureSeries.length).names.length := by
    simpa [initialShownDimensionInfo] using hdim
  have hiniti : dim < (initialShownDimensionInfo structureSeries.length).ids.length := by
    simpa [initialShownDimensionInfo] using hdim
  obtain ⟨hv, hn, hi⟩ := shownDimension_foldl_slot structureSeries
    (initialShownDimensionInfo structureSeries.length) dim hinitv hinitn hiniti
  rw [he] at hv hn hi
  have hv2 : (structureSeries.foldl shownDimensionStep
      (initialShownDimensionInfo structureSeries.length)).values.getD dim none =
      some (List.range e.values.length) := hv
  have hn2 : (structureSeries.foldl shownDimensionStep
      (initialShownDimensionInfo structureSeries.length)).names.getD dim none =
      some (if e.values.length > 1 then
        e.values.map (fun nameAndId => nameAndId.name) else [""]) := hn
  have hi2 : (structureSeries.foldl shownDimensionStep
      (initialShownDimensionInfo structureSeries.length)).ids.getD dim none =
      some (e.values.map (fun nameAndId => nameAndId.id)) := hi
  rw [calcShown_eq]
  have hlenB : (structureSeries.foldl shownDimensionStep
      (initialShownDimensionInfo structureSeries.length)).values.length =
      structureSeries.length :=
    (shownDimension_foldl_lengths structureSeries
      (initialShownDimensionInfo structureSeries.length)).1.trans
      (by simp [initialShownDimensionInfo])
  have hlenNB : (structureSeries.foldl shownDimensionStep
      (initialShownDimensionInfo structureSeries.length)).names.length =
      structureSeries.length :=
    (shownDimension_foldl_lengths structureSeries
      (initialShownDimensionInfo structureSeries.length)).2.1.trans
      (by simp [initialShownDimensionInfo])
  obtain ⟨vl, nl, hvl, hnl, hkeep, hblank⟩ := removeIndex2_slot
    { structureSeries.foldl shownDimensionStep
        (initialShownDimensionInfo structureSeries.length) with
      missingDimensionReported := decide (0 ≤ jsIndexOf
        (structureSeries.foldl shownDimensionStep
          (initialShownDimensionInfo structureSeries.length)).values none) }
    sd.regionDimensionIndex sd.timePeriodDimensionIndex dim
    (by
      show dim < (structureSeries.foldl shownDimensionStep
        (initialShownDimensionInfo structureSeries.length)).values.length
      rw [hlenB]; exact hdim)
    (by
      show dim < (structureSeries.foldl shownDimensionStep
        (initialShownDimensionInfo structureSeries.length)).names.length
      rw [hlenNB]; exact hdim)
    (List.range e.values.length)
    (if e.values.length > 1 then
      e.values.map (fun nameAndId => nameAndId.name) else [""]) hv2 hn2
  refine ⟨vl, nl, e.values.map (fun nameAndId => nameAndId.id), hvl, hnl, ?_, ?_, ?_⟩
  · rw [removeIndex_ids, removeIndex_ids]
    exact hi2
  · by_cases hbl : sd.regionDimensionIndex = some dim ∨
        sd.timePeriodDimensionIndex = some dim
    · obtain ⟨hvl1, hnl1⟩ := hblank hbl (by simpa using hlen1)
      rw [hvl1, hnl1]
      rfl
    · push_neg at hbl
      obtain ⟨hvlk, hnlk⟩ := hkeep ⟨hbl.1, hbl.2⟩
      rw [hvlk, hnlk]
      by_cases hgt : e.values.length > 1
      · simp [hgt]
      · have h1 : e.values.length = 1 := by omega
        simp [hgt, h1]
  · intro hr ht
    obtain ⟨hvlk, _⟩ := hkeep ⟨hr, ht⟩
    rw [hvlk]
    simp

/-- C5 witness: a two-dimension catalogue (region at keyPosition 0, a
two-valued measure at keyPosition 1) with the region dimension blanked,
instantiated at the un-blanked measure slot. -/
theorem decoder_length_invariant_amended_witness :
    ∃ vl nl il,
      (calculateShownDimensionNamesAndValues
          [⟨0, "REGION", "Region", [⟨"R1", "R1"⟩, ⟨"R2", "R2"⟩]⟩,
           ⟨1, "MEASURE", "Measure", [⟨"BD_2", "Births"⟩, ⟨"BD_4", "Deaths"⟩]⟩]
          (some ⟨some 0, none, 0, none⟩)).values.getD 1 none = some vl ∧
      (calculateShownDimensionNamesAndValues
          [⟨0, "REGION", "Region", [⟨"R1", "R1"⟩, ⟨"R2", "R2"⟩]⟩,
           ⟨1, "MEASURE", "Measure", [⟨"BD_2", "Births"⟩, ⟨"BD_4", "Deaths"⟩]⟩]
          (some ⟨some 0, none, 0, none⟩)).names.getD 1 none = some nl ∧
      (calculateShownDimensionNamesAndValues
          [⟨0, "REGION", "Region", [⟨"R1", "R1"⟩, ⟨"R2", "R2"⟩]⟩,
           ⟨1, "MEASURE", "Measure", [⟨"BD_2", "Births"⟩, ⟨"BD_4", "Deaths"⟩]⟩]
          (some ⟨some 0, none, 0, none⟩)).ids.getD 1 none = some il ∧
      vl.length = nl.length ∧
      ((⟨some 0, none, 0, none⟩ : SpecialDimensions).regionDimensionIndex ≠ some 1 →
        (⟨some 0, none, 0, none⟩ : SpecialDimensions).timePeriodDimensionIndex ≠ some 1 →
        vl.length = il.length) :=
  decoder_length_invariant_amended
    [⟨0, "REGION", "Region", [⟨"R1", "R1"⟩, ⟨"R2", "R2"⟩]⟩,
     ⟨1, "MEASURE", "Measure", [⟨"BD_2", "Births"⟩, ⟨"BD_4", "Deaths"⟩]⟩]
    ⟨some 0, none, 0, none⟩ (by decide) (by decide) 1 (by decide)

/-! ## C1: the total column sums exactly the active value columns -/

/-- C1: whenever a total column is recomputed (at least one concept, and the
registry's comma-joined sub-tuples are pairwise distinct, as enumeration
guarantees), `buildTotalColumns` produces exactly one column, named
`'Total selected'` and marked active, whose values are the element-wise sum of
exactly those value columns whose `CombinationRegistry` sub-tuple string-equals
some active combination (the cartesian product of each concept's currently
active child indices). -/
theorem buildTotalColumns_sums_active_selection (item : ItemState)
    (hconcepts : item.concepts ≠ [])
    (hnodup : (item.combinations.map joinComma).Nodup) :
    buildTotalColumns item =
      [{ name := "Total selected",
         values := sumValues (filterWithIndex
           (fun i _ => decide (joinComma (item.combinations.getD i []) ∈
             (arrayProduct (calculateActiveConceptValues item.concepts)).map joinComma))
           ((item.tableColumns.drop 1).take item.combinations.length)),
         isActive := true }] := by
  have hlen0 : ¬ ((calculateActiveConceptValues item.concepts).length = 0) := by
    simp only [calculateActiveConceptValues, List.length_map, List.length_eq_zero]
    exact hconcepts
  have hfilters : filterWithIndex
      (fun i _ => decide (0 ≤ jsIndexOf
        ((arrayProduct (calculateActiveConceptValues item.concepts)).map
          (fun activeCombination => jsIndexOf
            (item.combinations.map (fun combination => joinComma combination))
            (joinComma activeCombination)))
        (Int.ofNat i)))
      ((item.tableColumns.drop 1).take item.combinations.length) =
      filterWithIndex
      (fun i _ => decide (joinComma (item.combinations.getD i []) ∈
        (arrayProduct (calculateActiveConceptValues item.concepts)).map joinComma))
      ((item.tableColumns.drop 1).take item.combinations.length) := by
    apply filterWithIndex_congr
    intro j hj a
    have hjc : j < item.combinations.length := by
      rw [List.length_take] at hj
      omega
    apply decide_eq_decide.mpr
    constructor
    · intro h0
      have hmem := (jsIndexOf_nonneg_iff _ _).mp h0
      obtain ⟨ac, hac, hfeq⟩ := List.mem_map.mp hmem
      have h0x : 0 ≤ jsIndexOf
          (item.combinations.map (fun combination => joinComma combination))
          (joinComma ac) := by
        rw [hfeq]
        exact Int.ofNat_nonneg j
      have hgot := getElem?_jsIndexOf _ _ h0x
      rw [hfeq, show (Int.ofNat j).toNat = j from rfl, List.getElem?_map,
        List.getElem?_eq_getElem hjc] at hgot
      have hgot2 : joinComma item.combinations[j] = joinComma ac := by
        simpa using hgot
      rw [List.getD_eq_getElem _ _ hjc, hgot2]
      exact List.mem_map_of_mem joinComma hac
    · intro hmem
      obtain ⟨ac, hac, hjoin⟩ := List.mem_map.mp hmem
      have hsj : (item.combinations.map (fun combination => joinComma combination))[j]? =
          some (joinComma ac) := by
        rw [List.getElem?_map, List.getElem?_eq_getElem hjc]
        rw [List.getD_eq_getElem _ _ hjc] at hjoin
        rw [hjoin]
        rfl
      have hnodup2 : (item.combinations.map
          (fun combination => joinComma combination)).Nodup := hnodup
      have hidx := jsIndexOf_eq_of_nodup hnodup2 hsj
      refine (jsIndexOf_nonneg_iff _ _).mpr ?_
      exact List.mem_map.mpr ⟨ac, hac, hidx⟩
  simp only [buildTotalColumns]
  rw [if_neg hlen0, hfilters]

/-- An item state after a toggle: one concept with its first child active and
second inactive, a registry of two singleton sub-tuples, and the region column
followed by the two value columns. -/
def totalExampleItem : ItemState :=
  { url := "", dataflowUrl := none, concepts := [[true, false]],
    combinations := [[0], [1]], dimensionInfoIds := [],
    tableColumns :=
      [⟨"lga_code", [], false⟩, ⟨"Births", [some 1, none], false⟩,
       ⟨"Deaths", [some 10, some 2], false⟩],
    specialDimensions := ⟨none, none, 0, none⟩ }

/-- C1 witness: with only `Births` active, the total column sums exactly the
`Births` column, keeping its null cell null. -/
theorem buildTotalColumns_sums_active_selection_witness :
    totalExampleItem.concepts ≠ [] ∧
    (totalExampleItem.combinations.map joinComma).Nodup ∧
    buildTotalColumns totalExampleItem = [⟨"Total selected", [some 1, none], true⟩] :=
  ⟨by decide, by decide,
   (buildTotalColumns_sums_active_selection totalExampleItem (by decide) (by decide)).trans
     (by decide)⟩

/-! ## C9: the filter-expression request string -/

/-- How far the time-filter has shifted indices by original position `o`:
1 once the time-period dimension (if any) has been passed, else 0. -/
def tShift (timePeriodDimensionIndex : Option Nat) (o : Nat) : Nat :=
  match timePeriodDimensionIndex with
  | some t => if t < o then 1 else 0
  | none => 0

/-- When no time-period dimension sits at or before the region dimension, the
stateful filtered-index token computation agrees, position by position, with
the spec's keyPosition-ordered rule. -/
theorem requestTokens_aligned (avals : List (List Nat)) (rdi tpdi : Option Nat)
    (halign : ∀ r t, rdi = some r → tpdi = some t → r < t) :
    ∀ (ids : List (List String)) (o k s : Nat), k = o - tShift tpdi o →
      mapIdxState (requestTokenStep avals rdi) k s
        (filterWithIndexAux (fun i _ => nonTimeDimensionFilter tpdi i) o ids) =
      specRequestTokens avals rdi tpdi o s ids := by
  intro ids
  induction ids with
  | nil => intro o k s _; rfl
  | cons theseIds rest ih =>
    intro o k s hk
    by_cases ho : some o = tpdi
    · have hfilter : filterWithIndexAux (fun i _ => nonTimeDimensionFilter tpdi i) o
          (theseIds :: rest) =
          filterWithIndexAux (fun i _ => nonTimeDimensionFilter tpdi i) (o + 1) rest := by
        simp [filterWithIndexAux, nonTimeDimensionFilter, ho]
      have hspec : specRequestTokens avals rdi tpdi o s (theseIds :: rest) =
          specRequestTokens avals rdi tpdi (o + 1) s rest := by
        simp only [specRequestTokens, if_pos ho]
      rw [hfilter, hspec]
      apply ih
      have htp : tpdi = some o := ho.symm
      have h1 : tShift tpdi o = 0 := by simp [tShift, htp]
      have h2 : tShift tpdi (o + 1) = 1 := by simp [tShift, htp]
      omega
    · have hfilter : filterWithIndexAux (fun i _ => nonTimeDimensionFilter tpdi i) o
          (theseIds :: rest) =
          theseIds :: filterWithIndexAux (fun i _ => nonTimeDimensionFilter tpdi i)
            (o + 1) rest := by
        simp [filterWithIndexAux, nonTimeDimensionFilter, ho]
      rw [hfilter]
      have hk1 : k + 1 = (o + 1) - tShift tpdi (o + 1) := by
        rcases htp : tpdi with _ | t
        · simp only [htp, tShift] at hk ⊢
          omega
        · have hto : o ≠ t := fun hh => ho (by rw [htp, hh])
          simp only [htp, tShift] at hk ⊢
          split_ifs at hk ⊢ <;> omega
      have hkr : (some k = rdi) ↔ (some o = rdi) := by
        rcases hrd : rdi with _ | r
        · simp
        · rcases htp : tpdi with _ | t
          · have hko : k = o := by simp only [htp, tShift] at hk; omega
            rw [hko]
          · have hrt : r < t := halign r t hrd htp
            have hto : o ≠ t := fun hh => ho (by rw [htp, hh])
            simp only [htp, tShift] at hk
            constructor
            · intro hko
              have hkr2 : k = r := by simpa using hko
              have : o = r := by split_ifs at hk <;> omega
              simp [this]
            · intro hor
              have hor2 : o = r := by simpa using hor
              have : k = r := by split_ifs at hk <;> omega
              simp [this]
      by_cases hr : some o = rdi
      · have hr2 : some k = rdi := hkr.mpr hr
        simp only [mapIdxState, requestTokenStep, if_pos hr2, specRequestTokens,
          if_neg ho, if_pos hr]
        exact congrArg _ (ih (o + 1) (k + 1) s hk1)
      · have hr2 : ¬ some k = rdi := fun hh => hr (hkr.mp hh)
        by_cases hone : theseIds.length = 1
        · simp only [mapIdxState, requestTokenStep, if_neg hr2, if_pos hone,
            specRequestTokens, if_neg ho, if_neg hr]
          exact congrArg _ (ih (o + 1) (k + 1) s hk1)
        · simp only [mapIdxState, requestTokenStep, if_neg hr2, if_neg hone,
            specRequestTokens, if_neg ho, if_neg hr]
          exact congrArg _ (ih (o + 1) (k + 1) (s + 1) hk1)

/-- C9 amended: whenever the time-period dimension does not sit at or before
the region dimension (always true of SDMX data, where `TIME_PERIOD` is last;
`timeAfterRegion` also holds when either role is absent),
`calculateDimensionRequestString` produces, for each non-time dimension in
keyPosition order, `''` for the region dimension, the single id for a
one-valued dimension, and otherwise the `+`-joined ids of the dimension's
currently active selection items, joined across dimensions with `.` — the
rule formalised by `specDimensionRequestString`. -/
theorem calculateDimensionRequestString_matches_rule (item : ItemState)
    (halign : timeAfterRegion item.specialDimensions = true) :
    calculateDimensionRequestString item = specDimensionRequestString item := by
  have halign2 : ∀ r t, item.specialDimensions.regionDimensionIndex = some r →
      item.specialDimensions.timePeriodDimensionIndex = some t → r < t := by
    intro r t hr ht
    unfold timeAfterRegion at halign
    rw [hr, ht] at halign
    simpa using halign
  have htok := requestTokens_aligned (calculateActiveConceptValues item.concepts)
    item.specialDimensions.regionDimensionIndex
    item.specialDimensions.timePeriodDimensionIndex halign2
    item.dimensionInfoIds 0 0 0 (Nat.zero_sub _).symm
  show String.intercalate "."
      ((mapIdxState (requestTokenStep (calculateActiveConceptValues item.concepts)
          item.specialDimensions.regionDimensionIndex) 0 0
        (filterWithIndexAux
          (fun i _ => nonTimeDimensionFilter item.specialDimensions.timePeriodDimensionIndex i)
          0 item.dimensionInfoIds)).map (fun values => String.intercalate "+" values)) =
    String.intercalate "."
      ((specRequestTokens (calculateActiveConceptValues item.concepts)
          item.specialDimensions.regionDimensionIndex
          item.specialDimensions.timePeriodDimensionIndex 0 0
          item.dimensionInfoIds).map (fun values => String.intercalate "+" values))
  rw [htok]

/-- A dataflow catalogue in which the time-period dimension (keyPosition 0)
precedes the region dimension (keyPosition 1), with a two-valued measure
dimension at keyPosition 2 whose two children are active. -/
def timeBeforeRegionItem : ItemState :=
  { url := "u", dataflowUrl := some "dataflow", concepts := [[true, true]],
    combinations := [[0], [1]],
    dimensionInfoIds := [["T1"], ["R1", "R2"], ["BD_2", "BD_4"]],
    tableColumns := [],
    specialDimensions :=
      { regionDimensionIndex := some 1, regionTypeDimensionIndex := none,
        regionTypeCount := 0, timePeriodDimensionIndex := some 0 } }

/-- C9 counterexample: with the time-period dimension before the region
dimension, the code compares the region keyPosition against indices into the
time-FILTERED array, emits the region wildcard token for the measure dimension
and spends the measure concept's selection on the region dimension's ids: it
returns `R1+R2.` where the claimed rule gives `.BD_2+BD_4`. -/
theorem requestString_time_before_region_counterexample :
    calculateDimensionRequestString timeBeforeRegionItem = "R1+R2." ∧
    specDimensionRequestString timeBeforeRegionItem = ".BD_2+BD_4" ∧
    calculateDimensionRequestString timeBeforeRegionItem ≠
      specDimensionRequestString timeBeforeRegionItem := by
  refine ⟨rfl, rfl, ?_⟩
  decide

/-- The claim's own example: two dimensions with ids `[BD_2, BD_4]` (both
active) and a singleton dimension `A`; no region or time dimension. -/
def requestExampleItem : ItemState :=
  { url := "u", dataflowUrl := some "dataflow", concepts := [[true, true]],
    combinations := [[0], [1]], dimensionInfoIds := [["BD_2", "BD_4"], ["A"]],
    tableColumns := [],
    specialDimensions :=
      { regionDimensionIndex := none, regionTypeDimensionIndex := none,
        regionTypeCount := 0, timePeriodDimensionIndex := none } }

/-- C9 witness: the claim's example evaluates to `BD_2+BD_4.A`, and the
amended theorem applies to it. -/
theorem calculateDimensionRequestString_matches_rule_witness :
    timeAfterRegion requestExampleItem.specialDimensions = true ∧
    calculateDimensionRequestString requestExampleItem =
      specDimensionRequestString requestExampleItem ∧
    calculateDimensionRequestString requestExampleItem = "BD_2+BD_4.A" :=
  ⟨by decide, calculateDimensionRequestString_matches_rule requestExampleItem (by decide),
   by decide⟩

end SdmxJson
